import Mathlib

/-!
Verification development for the craftdesk-cli dependency manager.

The definitions below are a shallow embedding of the TypeScript sources:

  * src/services/installer.ts   — the Installer class (installCraft,
    installFromGit, installFromLockfile, getTypeDirectory, registerPlugin,
    scanPluginComponents, listInstalled, removeCraft);
  * src/commands/remove.ts      — the removeCommand handler;
  * src/services/settings-manager.ts — the SettingsManager class.

File-system effects are modelled by explicit state records, and external
effects (network download, zip extraction, git subprocess calls, settings
writes) by an environment record of oracles describing the outcome the
outside world would produce.  Each modelled function threads its state and
an event trace explicitly; TypeScript exceptions become the Except monad.
-/

namespace CraftDesk

/-- Lock entry shape from src/types/craftdesk-lock.ts, restricted to the
fields the installer reads.  Optional TypeScript fields become Option. -/
structure LockEntry where
  version : String := ""
  resolved : Option String := none
  git : Option String := none
  branch : Option String := none
  tag : Option String := none
  commit : Option String := none
  path : Option String := none
  file : Option String := none
  integrity : Option String := none
  type : String := ""
  dependencies : List (String × String) := []
  installedAs : Option String := none
  deriving Repr, DecidableEq

/-- Errors thrown by the modelled installer code paths.  The constructors
mirror the throw sites in src/services/installer.ts; note that the source
contains no ConfigurationError throw site. -/
inductive InstallErr where
  | downloadFailed
  | checksumMismatch (name version expected : String)
  | extractFailed
  | gitCloneFailed
  | gitCheckoutFailed
  | gitFileNotFound (file : String)
  | gitReaddirFailed
  deriving Repr, DecidableEq

/-- Observable actions of one installCraft run, used to state ordering
properties (checksum before extraction, warning emission, registration). -/
inductive Event where
  | download
  | verify (ok : Bool)
  | warnNoChecksum
  | extract
  | removeArchive
  | writeMetadata
  | settingsRegister (name : String)
  | mcpRegister (name : String)
  | warnMcpFile
  | warnRegisterFailed
  deriving Repr, DecidableEq

/-- Contents of one craft target directory: the set of top-level file names
present, plus whether the temporary .tmp-git clone directory exists. -/
structure CraftDir where
  files : List String := []
  tmpGit : Bool := false
  deriving Repr, DecidableEq

/-- Copy a file into a directory listing with overwrite allowed: a second
copy of the same name does not duplicate the entry. -/
def addFile (fs : List String) (f : String) : List String :=
  if f ∈ fs then fs else fs ++ [f]

/-- Model of fs.remove on a single file name. -/
def removeFile (fs : List String) (f : String) : List String :=
  fs.filter (fun g => ¬ g = f)

/-- Last path segment, as path.basename computes it for the names the
installer passes (entry.file values): the characters after the final
slash. -/
def basename (p : String) : String :=
  String.mk ((p.data.reverse.takeWhile (fun c => c != '/')).reverse)

/-- Manifest component lists (src/types/claude-settings.ts, the part of
PluginManifest read by registerPlugin).  A missing list is none. -/
structure Components where
  skills : Option (List String) := none
  agents : Option (List String) := none
  commands : Option (List String) := none
  hooks : Option (List String) := none
  deriving Repr, DecidableEq

/-- The mcpServers manifest field: either an inline map of server name to
configuration, or a path to a .mcp.json file. -/
inductive McpSpec where
  | inline (servers : List (String × String))
  | filePath (p : String)
  deriving Repr, DecidableEq

/-- Plugin manifest (.claude-plugin/plugin.json), restricted to the fields
that drive control flow in registerPlugin. -/
structure PluginManifest where
  components : Option Components := none
  mcpServers : Option McpSpec := none
  deriving Repr, DecidableEq

/-- Environment of one installCraft call: the outcomes the outside world
(network, archive contents, git remote, settings store) would produce. -/
structure InstallEnv where
  /-- Whether the archive download stream finishes without error. -/
  downloadOk : Bool := true
  /-- SHA-256 digest of the downloaded archive, as the crypto util would
  compute it over the bytes on disk. -/
  archiveDigest : String := ""
  /-- Entries of the downloaded zip, or none when AdmZip throws. -/
  zipEntries : Option (List String) := some []
  /-- Whether the git clone subprocess succeeds. -/
  cloneOk : Bool := true
  /-- Whether the git checkout of entry.commit succeeds. -/
  checkoutOk : Bool := true
  /-- Whether entry.file exists inside the clone. -/
  gitFileExists : Bool := true
  /-- Result of fs.readdir over the chosen source path (the clone root for
  none, the subdirectory for some path); none when readdir throws. -/
  listingOf : Option String → Option (List String) := fun _ => some []
  /-- Result of readPluginManifest (its internal try/catch already maps
  read or parse failures to null). -/
  manifest : Option PluginManifest := none
  /-- Result of scanPluginComponents (its per-type try/catch already maps
  scan failures to an absent list). -/
  scanned : Components := {}
  /-- Whether settingsManager.registerPlugin throws. -/
  settingsThrow : Bool := false
  /-- Whether settingsManager.registerMCPServer throws (modelled as the
  first call in the loop failing). -/
  mcpThrow : Bool := false
  /-- Whether the .mcp.json file referenced by a string mcpServers exists. -/
  mcpFileExists : Bool := true
  /-- Parsed server names of the .mcp.json file; none when readJson throws. -/
  mcpFileJson : Option (List String) := some []

/-- Modelled from the spec: src/utils/crypto.ts is not present in the
sources; per the spec, verifyFileChecksum computes the SHA-256 digest of
the file and compares it with the expected integrity value.  The digest of
the bytes on disk is supplied by the environment. -/
def verifyFileChecksum (digest expected : String) : Bool :=
  digest == expected

/-- Body of Installer.installFromGit (installer.ts lines 174-229): clone
into the .tmp-git temporary directory, optionally checkout a commit, then
either copy the single named file (entry.file, renamed to its basename) or
copy the listing of the chosen source directory (entry.path below the
clone root, or the clone root itself), skipping .tmp-git and .git.
Errors carry the directory state at the throw point. -/
def gitBody (env : InstallEnv) (entry : LockEntry) (d : CraftDir) :
    Except (InstallErr × CraftDir) CraftDir :=
  let d1 : CraftDir := { d with tmpGit := true }
  if env.cloneOk then
    if entry.commit.isSome && !env.checkoutOk then
      .error (InstallErr.gitCheckoutFailed, d1)
    else
      match entry.file with
      | some f =>
        if env.gitFileExists then
          .ok { d1 with files := addFile d1.files (basename f) }
        else
          .error (InstallErr.gitFileNotFound f, d1)
      | none =>
        match env.listingOf entry.path with
        | some listing =>
          let copied := (listing.filter
            (fun f => (f != ".tmp-git") && (f != ".git"))).foldl addFile d1.files
          .ok { d1 with files := copied }
        | none => .error (InstallErr.gitReaddirFailed, d1)
  else
    .error (InstallErr.gitCloneFailed, d1)

/-- Installer.installFromGit: the body wrapped in try/finally, the finally
clause removing the temporary clone directory on both exits
(installer.ts lines 231-234). -/
def installFromGit (env : InstallEnv) (entry : LockEntry) (d : CraftDir) :
    Except InstallErr Unit × CraftDir :=
  match gitBody env entry d with
  | .ok d1 => (.ok (), { d1 with tmpGit := false })
  | .error (e, d1) => (.error e, { d1 with tmpGit := false })

/-- Component merge of Installer.registerPlugin (installer.ts lines
322-341): start from an empty record, copy each scanned list that is
present, then override each per-type list that the manifest declares. -/
def mergeComponents (manifest : Option PluginManifest) (scanned : Components) :
    Components :=
  let components : Components := {}
  let components := match scanned.skills with
    | some v => { components with skills := some v } | none => components
  let components := match scanned.agents with
    | some v => { components with agents := some v } | none => components
  let components := match scanned.commands with
    | some v => { components with commands := some v } | none => components
  let components := match scanned.hooks with
    | some v => { components with hooks := some v } | none => components
  match manifest with
  | none => components
  | some m =>
    match m.components with
    | none => components
    | some mc =>
      let components := match mc.skills with
        | some v => { components with skills := some v } | none => components
      let components := match mc.agents with
        | some v => { components with agents := some v } | none => components
      let components := match mc.commands with
        | some v => { components with commands := some v } | none => components
      match mc.hooks with
      | some v => { components with hooks := some v } | none => components

/-- Try-block body of Installer.registerPlugin (installer.ts lines
313-392): read the manifest, scan the directory, merge components, call
settingsManager.registerPlugin, then register MCP servers declared inline
or through a .mcp.json file.  A throw from the settings store or from an
inline MCP registration escapes this body; MCP failures in the file branch
are caught by the inner try/catch and only warned about. -/
def registerPluginBody (env : InstallEnv) (name : String) (_entry : LockEntry) :
    Except String (List Event) :=
  let _components := mergeComponents env.manifest env.scanned
  if env.settingsThrow then .error "settings write failed"
  else
    let evs := [Event.settingsRegister name]
    match env.manifest.bind (fun m => m.mcpServers) with
    | none => .ok evs
    | some (.inline servers) =>
      if env.mcpThrow && !servers.isEmpty then .error "mcp register failed"
      else .ok (evs ++ servers.map (fun s => Event.mcpRegister s.1))
    | some (.filePath _) =>
      if env.mcpFileExists then
        match env.mcpFileJson with
        | none => .ok (evs ++ [Event.warnMcpFile])
        | some servers =>
          if env.mcpThrow && !servers.isEmpty then .ok (evs ++ [Event.warnMcpFile])
          else .ok (evs ++ servers.map (fun s => Event.mcpRegister s))
      else .ok evs

/-- Installer.registerPlugin: the body wrapped in the outer try/catch that
downgrades every failure to a warning (installer.ts lines 393-396). -/
def registerPlugin (env : InstallEnv) (name : String) (entry : LockEntry) :
    List Event :=
  match registerPluginBody env name entry with
  | .ok evs => evs
  | .error _ => [Event.warnRegisterFailed]

/-- Installer.extractArchive followed by the archive cleanup of
installCraft (installer.ts lines 158-162, 280-289): extraction failure is
rethrown and, because there is no try/finally here, skips the removal of
archive.zip. -/
def extractSteps (env : InstallEnv) (d : CraftDir) (evs : List Event) :
    Except (InstallErr × CraftDir × List Event) (CraftDir × List Event) :=
  match env.zipEntries with
  | some entries =>
    let d1 : CraftDir := { d with files := entries.foldl addFile d.files }
    let d2 : CraftDir := { d1 with files := removeFile d1.files "archive.zip" }
    .ok (d2, evs ++ [Event.extract, Event.removeArchive])
  | none => .error (InstallErr.extractFailed, d, evs)

/-- Registry branch of Installer.installCraft (installer.ts lines
134-162): download archive.zip into the craft directory, verify the
checksum when the lock entry carries an integrity value (mismatch removes
the archive and throws), warn and skip verification otherwise, then
extract and remove the archive. -/
def registrySteps (env : InstallEnv) (name : String) (entry : LockEntry)
    (d : CraftDir) :
    Except (InstallErr × CraftDir × List Event) (CraftDir × List Event) :=
  if env.downloadOk then
    let d1 : CraftDir := { d with files := addFile d.files "archive.zip" }
    let evs1 := [Event.download]
    match entry.integrity with
    | some expected =>
      let ok := verifyFileChecksum env.archiveDigest expected
      let evs2 := evs1 ++ [Event.verify ok]
      if ok then
        extractSteps env d1 evs2
      else
        let d2 : CraftDir := { d1 with files := removeFile d1.files "archive.zip" }
        .error (InstallErr.checksumMismatch name entry.version expected, d2, evs2)
    | none =>
      extractSteps env d1 (evs1 ++ [Event.warnNoChecksum])
  else
    .error (InstallErr.downloadFailed, d, [])

/-- Source-selection step of Installer.installCraft (installer.ts lines
131-163): the git branch when entry.git is set, the registry branch
otherwise. -/
def installCraftBody (env : InstallEnv) (name : String) (entry : LockEntry)
    (d : CraftDir) :
    Except (InstallErr × CraftDir × List Event) (CraftDir × List Event) :=
  if entry.git.isSome then
    match installFromGit env entry d with
    | (.ok _, d1) => .ok (d1, [])
    | (.error e, d1) => .error (e, d1, [])
  else
    registrySteps env name entry d

/-- Installer.installCraft (installer.ts lines 120-172): install from the
selected source, write the .craftdesk-metadata.json record, and register
the plugin in settings when the entry type is plugin.  The result pairs
the thrown-or-ok outcome with the final craft directory state and the
event trace. -/
def installCraft (env : InstallEnv) (name : String) (entry : LockEntry)
    (d : CraftDir) : Except InstallErr Unit × CraftDir × List Event :=
  match installCraftBody env name entry d with
  | .error (e, d1, evs) => (.error e, d1, evs)
  | .ok (d1, evs) =>
    let d2 : CraftDir := { d1 with files := addFile d1.files ".craftdesk-metadata.json" }
    let evs2 := evs ++ [Event.writeMetadata]
    if entry.type = "plugin" then
      (.ok (), d2, evs2 ++ registerPlugin env name entry)
    else
      (.ok (), d2, evs2)

/-- Per-craft progress events of one installFromLockfile run. -/
inductive BatchEvent where
  | started (name : String)
  | completed (name : String)
  | failed (name : String)
  deriving Repr, DecidableEq

/-- Installer.installFromLockfile (installer.ts lines 66-85): iterate the
lockfile crafts in order; each iteration awaits installCraft to completion
before the next starts; the catch block logs and rethrows the first error,
aborting the remaining batch.  The per-craft outcome is abstracted as an
oracle.  Returns the event trace, the names installed so far (nothing is
ever removed from it: no rollback), and the overall outcome. -/
def installFromLockfile (outcome : String → LockEntry → Except InstallErr Unit) :
    List (String × LockEntry) → List BatchEvent × List String × Except InstallErr Unit
  | [] => ([], [], .ok ())
  | (n, e) :: rest =>
    match outcome n e with
    | .ok _ =>
      let (evs, installed, r) := installFromLockfile outcome rest
      (BatchEvent.started n :: BatchEvent.completed n :: evs, n :: installed, r)
    | .error err => ([BatchEvent.started n, BatchEvent.failed n], [], .error err)

/-- Installer.getTypeDirectory (installer.ts lines 240-255). -/
def getTypeDirectory (type : String) : String :=
  match type with
  | "skill" => "skills"
  | "agent" => "agents"
  | "command" => "commands"
  | "hook" => "hooks"
  | "plugin" => "plugins"
  | _ => "crafts"

/-- Metadata record fields read back by listInstalled. -/
structure MetaRec where
  version : String := ""
  type : String := ""
  deriving Repr, DecidableEq

/-- One craft directory inside the install root: its parent type
directory, its name, and its metadata file content when present. -/
structure PlacedCraft where
  typeDir : String
  name : String
  meta : Option MetaRec := none
  deriving Repr, DecidableEq

/-- Entry shape returned by listInstalled. -/
structure ListedCraft where
  name : String
  version : String
  type : String
  deriving Repr, DecidableEq

/-- The five fixed directories scanned by listInstalled
(installer.ts line 500). -/
def typeDirs : List String := ["skills", "agents", "commands", "hooks", "plugins"]

/-- One iteration of the listInstalled scan: the crafts of one type
directory that carry a metadata record. -/
def scanTypeDir (root : List PlacedCraft) (td : String) : List ListedCraft :=
  (root.filter (fun p => p.typeDir == td)).filterMap
    (fun p => p.meta.map (fun m => { name := p.name, version := m.version, type := m.type }))

/-- The listInstalled loop over a list of type directories. -/
def listInstalledOver : List String → List PlacedCraft → List ListedCraft
  | [], _ => []
  | td :: rest, root => scanTypeDir root td ++ listInstalledOver rest root

/-- Installer.listInstalled (installer.ts lines 492-521): scan the five
fixed type directories and return name, version and type of every craft
directory holding a metadata record. -/
def listInstalled (root : List PlacedCraft) : List ListedCraft :=
  listInstalledOver typeDirs root

/-- Effect of a successful installCraft on the install root listing
(installer.ts lines 121-128 and createMetadata): the craft directory is
created under the type directory chosen by getTypeDirectory and receives
a .craftdesk-metadata.json record with the entry version and type. -/
def installPlacement (root : List PlacedCraft) (name : String)
    (entry : LockEntry) : List PlacedCraft :=
  root ++ [{ typeDir := getTypeDirectory entry.type, name := name,
             meta := some { version := entry.version, type := entry.type } }]

/-- Plugin tree node shape from src/types/craftdesk-lock.ts, restricted to
the fields read by the remove command. -/
structure PluginTreeNode where
  version : String := ""
  dependencies : Option (List String) := none
  requiredBy : Option (List String) := none
  isDependency : Option Bool := none
  deriving Repr, DecidableEq

/-- Lockfile document, restricted to the fields the remove command reads. -/
structure Lockfile where
  crafts : List (String × LockEntry) := []
  pluginTree : Option (List (String × PluginTreeNode)) := none
  deriving Repr, DecidableEq

/-- Project manifest craftdesk.json, restricted to its four dependency
maps; an absent map is none. -/
structure CraftDeskJson where
  dependencies : Option (List (String × String)) := none
  devDependencies : Option (List (String × String)) := none
  optionalDependencies : Option (List (String × String)) := none
  peerDependencies : Option (List (String × String)) := none
  deriving Repr, DecidableEq

/-- Association-list lookup used for the JavaScript object index
craftDeskJson[field][craftName]. -/
def lookupKey {α : Type} (l : List (String × α)) (k : String) : Option α :=
  (l.find? (fun p => p.1 == k)).map (fun p => p.2)

/-- Truthiness of craftDeskJson[field] && craftDeskJson[field][craftName]:
the field exists and holds a non-empty version string for the craft. -/
def truthyField (field : Option (List (String × String))) (k : String) : Bool :=
  match field with
  | some l =>
    match lookupKey l k with
    | some v => !(v == "")
    | none => false
  | none => false

/-- The delete operator on one dependency map, followed by the removal of
the map itself when it became empty (remove.ts lines 59-64). -/
def deleteAndClean (field : Option (List (String × String))) (k : String) :
    Option (List (String × String)) :=
  match field with
  | some l =>
    let l1 := l.filter (fun p => !(p.1 == k))
    if l1.isEmpty then none else some l1
  | none => none

/-- The loop of remove.ts lines 53-67 over the four dependency fields in
their fixed order, stopping at the first field that contains the craft:
returns the updated document and the field name, or none when the craft
is in no field. -/
def removeFromJson (j : CraftDeskJson) (k : String) :
    Option (CraftDeskJson × String) :=
  if truthyField j.dependencies k then
    some ({ j with dependencies := deleteAndClean j.dependencies k }, "dependencies")
  else if truthyField j.devDependencies k then
    some ({ j with devDependencies := deleteAndClean j.devDependencies k }, "devDependencies")
  else if truthyField j.optionalDependencies k then
    some ({ j with optionalDependencies := deleteAndClean j.optionalDependencies k }, "optionalDependencies")
  else if truthyField j.peerDependencies k then
    some ({ j with peerDependencies := deleteAndClean j.peerDependencies k }, "peerDependencies")
  else
    none

/-- The dependents scan of remove.ts lines 32-36: every plugin tree node
whose dependencies list contains the craft, formatted name@version, in
iteration order. -/
def collectDependents (tree : List (String × PluginTreeNode)) (craftName : String) :
    List String :=
  tree.filterMap (fun p =>
    if craftName ∈ p.2.dependencies.getD [] then
      some (p.1 ++ "@" ++ p.2.version)
    else none)

/-- Edge pruning of remove.ts lines 94-103 applied to one remaining node:
drop the removed name from the requiredBy and dependencies lists. -/
def pruneNode (craftName : String) (node : PluginTreeNode) : PluginTreeNode :=
  { node with
    requiredBy := node.requiredBy.map (fun l => l.filter (fun dep => !(dep == craftName))),
    dependencies := node.dependencies.map (fun l => l.filter (fun dep => !(dep == craftName))) }

/-- Outcome of the remove command: the three process.exit(1) paths and the
successful path with the updated documents. -/
inductive RemoveOutcome where
  | exitNoJson
  | exitDependents (dependents : List String)
  | exitNotInJson
  | removed (json : CraftDeskJson) (lock : Option Lockfile)
  deriving Repr, DecidableEq

/-- removeCommand (src/commands/remove.ts lines 16-116): require a project
manifest; without the force flag, exit listing the dependents found in the
plugin tree when there are any; delete the craft from the first dependency
field that holds it or exit; then, when the lockfile has an entry for the
craft, delete the lock entry, delete its tree node, prune its name from
every remaining node, and persist; a lockfile without that entry is left
unwritten (file-system removal is attempted best-effort either way). -/
def removeCommand (craftName : String) (force : Bool)
    (json? : Option CraftDeskJson) (lock? : Option Lockfile) : RemoveOutcome :=
  match json? with
  | none => RemoveOutcome.exitNoJson
  | some json =>
    let blocked : Option (List String) :=
      match lock? with
      | some lock =>
        match lock.pluginTree with
        | some tree =>
          if force then none
          else
            let ds := collectDependents tree craftName
            if ds.isEmpty then none else some ds
        | none => none
      | none => none
    match blocked with
    | some ds => RemoveOutcome.exitDependents ds
    | none =>
      match removeFromJson json craftName with
      | none => RemoveOutcome.exitNotInJson
      | some (json1, _field) =>
        match lock? with
        | some lock =>
          match lookupKey lock.crafts craftName with
          | some _entry =>
            let crafts1 := lock.crafts.filter (fun p => !(p.1 == craftName))
            let tree1 := lock.pluginTree.map (fun tree =>
              (tree.filter (fun p => !(p.1 == craftName))).map
                (fun p => (p.1, pruneNode craftName p.2)))
            RemoveOutcome.removed json1 (some { crafts := crafts1, pluginTree := tree1 })
          | none => RemoveOutcome.removed json1 (some lock)
        | none => RemoveOutcome.removed json1 none

/-- Plugin entry of the settings document, restricted to the fields the
settings manager itself manipulates. -/
structure PluginConfig where
  name : String := ""
  version : String := ""
  installedAt : Option String := none
  deriving Repr, DecidableEq

/-- ClaudeSettings document shape
(settings-manager.ts createDefaultSettings and readSettings). -/
structure ClaudeSettings where
  version : String := ""
  installPath : String := ""
  updatedAt : String := ""
  plugins : List (String × PluginConfig) := []
  mcpServers : Option (List (String × String)) := none
  deriving Repr, DecidableEq

/-- State of the settings file on disk: absent, present but unreadable
(readFile throws), present with content JSON.parse rejects, or present
with a parsed settings document. -/
inductive SettingsFile where
  | absent
  | unreadable
  | invalidJson
  | valid (s : ClaudeSettings)
  deriving Repr, DecidableEq

/-- SettingsManager.createDefaultSettings (settings-manager.ts lines
265-272). -/
def createDefaultSettings (installDir now : String) : ClaudeSettings :=
  { version := "1.0.0", installPath := installDir, updatedAt := now, plugins := [] }

/-- Try-block body of SettingsManager.readSettings: return the parsed file
when it exists, default settings when it does not; read and parse failures
throw out of this body. -/
def readSettingsBody (installDir now : String) :
    SettingsFile → Except String ClaudeSettings
  | SettingsFile.absent => .ok (createDefaultSettings installDir now)
  | SettingsFile.unreadable => .error "read failed"
  | SettingsFile.invalidJson => .error "parse failed"
  | SettingsFile.valid s => .ok s

/-- SettingsManager.readSettings (settings-manager.ts lines 32-47): the
body wrapped in the catch that warns and returns default settings. -/
def readSettings (installDir now : String) (f : SettingsFile) : ClaudeSettings :=
  match readSettingsBody installDir now f with
  | .ok s => s
  | .error _ => createDefaultSettings installDir now

/-- The settings.plugins[name] = config assignment on the association-list
model: replace an existing entry in place or append a new one. -/
def setPluginEntry (ps : List (String × PluginConfig)) (k : String)
    (v : PluginConfig) : List (String × PluginConfig) :=
  if ps.any (fun p => p.1 == k) then
    ps.map (fun p => if p.1 == k then (k, v) else p)
  else
    ps ++ [(k, v)]

/-- SettingsManager.writeSettings (settings-manager.ts lines 52-72): stamp
updatedAt and replace the file content with the serialized document. -/
def writeSettings (s : ClaudeSettings) (now : String) : SettingsFile :=
  SettingsFile.valid { s with updatedAt := now }

/-- SettingsManager.registerPlugin (settings-manager.ts lines 77-88): read
the settings (defaulting on failure), add or update the plugin entry, and
write the document back. -/
def smRegisterPlugin (installDir now : String) (config : PluginConfig)
    (f : SettingsFile) : SettingsFile :=
  let settings := readSettings installDir now f
  let entry := { config with installedAt := some (config.installedAt.getD now) }
  let settings1 := { settings with plugins := setPluginEntry settings.plugins config.name entry }
  writeSettings settings1 now

/-- Declared component list of a manifest for one component type, used to
state the merge law. -/
def declaredList (m : Option PluginManifest)
    (f : Components → Option (List String)) : Option (List String) :=
  (m.bind (fun mm => mm.components)).bind f

/-- Trace of a batch in which every craft installs successfully. -/
def successTrace : List (String × LockEntry) → List BatchEvent
  | [] => []
  | (n, _) :: rest => BatchEvent.started n :: BatchEvent.completed n :: successTrace rest

/-- Environment of the C2 counterexample: clone succeeds and the named
file exists in the clone. -/
def envBothSet : InstallEnv := { gitFileExists := true }

/-- Lock entry of the C2 counterexample: a git source with both a
subdirectory path and a file set. -/
def entryBothSet : LockEntry :=
  { version := "1.0.0", git := some "https://example.com/r.git",
    path := some "packages/sub", file := some "docs/readme.md", type := "skill" }

/-- Environment of the C7 counterexample: the download succeeds but the
archive is corrupt, so AdmZip extraction throws. -/
def envExtractFail : InstallEnv := { downloadOk := true, zipEntries := none }

/-- Lock entry of the C7 counterexample: a registry source without an
integrity value. -/
def entryRegistryPlain : LockEntry :=
  { version := "1.0.0", resolved := some "https://example.com/a.zip", type := "skill" }

/-- Environment of the C1 witness: the archive digest differs from the
integrity value of entryWithIntegrity. -/
def envMismatch : InstallEnv := { downloadOk := true, archiveDigest := "aaa" }

/-- Lock entry of the C1 witness: a registry source pinning integrity. -/
def entryWithIntegrity : LockEntry :=
  { version := "1.0.0", resolved := some "https://example.com/a.zip",
    integrity := some "bbb", type := "skill" }

/-- Environment of the C8 witness: every install step succeeds but the
settings store write throws. -/
def envSettingsThrow : InstallEnv :=
  { downloadOk := true, zipEntries := some ["plugin.md"], settingsThrow := true }

/-- Lock entry of the C8 witness: a registry-sourced plugin without an
integrity value. -/
def entryPluginPlain : LockEntry :=
  { version := "2.0.0", resolved := some "https://example.com/p.zip", type := "plugin" }

/-- Environment of the C5 witness: the digest matches only the integrity
value carried by the first entry of the batch. -/
def envBatch : InstallEnv :=
  { downloadOk := true, archiveDigest := "good", zipEntries := some ["SKILL.md"] }

/-- First entry of the C5 witness batch: installs successfully. -/
def entryBatchOk : LockEntry :=
  { version := "1.0.0", resolved := some "https://example.com/a.zip",
    integrity := some "good", type := "skill" }

/-- Second entry of the C5 witness batch: its integrity value does not
match the digest, so installCraft throws. -/
def entryBatchBad : LockEntry :=
  { version := "1.0.0", resolved := some "https://example.com/b.zip",
    integrity := some "zzz", type := "skill" }

/-- Per-craft outcome oracle of the C5 witness, instantiated with the
modelled installCraft itself. -/
def outcomeBatch (n : String) (e : LockEntry) : Except InstallErr Unit :=
  (installCraft envBatch n e {}).1

/-- Plugin tree of the C4 witness: two plugins, both depending on y. -/
def treeSample : List (String × PluginTreeNode) :=
  [("p1", { version := "1.0.0", dependencies := some ["x", "y"] }),
   ("p2", { version := "2.0.0", dependencies := some ["y"], requiredBy := some ["x"] })]

/-- Lockfile of the C4 witness. -/
def lockSample : Lockfile :=
  { crafts := [("y", { version := "0.1.0", type := "skill" })],
    pluginTree := some treeSample }

/-- Project manifest of the C4 witness: y is a direct dependency. -/
def jsonSample : CraftDeskJson := { dependencies := some [("y", "^0.1.0")] }

theorem mem_addFile_self (fs : List String) (a : String) : a ∈ addFile fs a := by
  unfold addFile
  split
  · assumption
  · simp

theorem mem_addFile (fs : List String) (a b : String) :
    a ∈ addFile fs b ↔ a ∈ fs ∨ a = b := by
  unfold addFile
  split
  · rename_i hb
    constructor
    · exact Or.inl
    · rintro (h | rfl)
      · exact h
      · exact hb
  · simp

theorem not_mem_removeFile_self (fs : List String) (a : String) :
    a ∉ removeFile fs a := by
  intro h
  rw [removeFile, List.mem_filter] at h
  simp at h

theorem not_mem_filter_ne (l : List String) (a : String) :
    a ∉ l.filter (fun x => !(x == a)) := by
  intro h
  rw [List.mem_filter] at h
  simp at h

theorem listInstalledOver_append_notmem (dirs : List String)
    (root : List PlacedCraft) (p : PlacedCraft) (h : p.typeDir ∉ dirs) :
    listInstalledOver dirs (root ++ [p]) = listInstalledOver dirs root := by
  induction dirs with
  | nil => rfl
  | cons td rest ih =>
    rw [List.mem_cons, not_or] at h
    simp only [listInstalledOver]
    rw [ih h.2]
    have hfilter : (root ++ [p]).filter (fun q => q.typeDir == td)
        = root.filter (fun q => q.typeDir == td) := by
      rw [List.filter_append]
      have hb : (p.typeDir == td) = false := by simp [h.1]
      have : [p].filter (fun q => q.typeDir == td) = [] := by
        simp [List.filter, hb]
      rw [this, List.append_nil]
    unfold scanTypeDir
    rw [hfilter]

/-- C6: for every git-sourced install, the temporary clone directory
created inside the target craft directory is removed on every exit path
of installFromGit — whatever the outcomes of clone, checkout, file copy
or directory listing, the final state has no .tmp-git directory. -/
theorem installFromGit_always_removes_tmpdir (env : InstallEnv)
    (entry : LockEntry) (d : CraftDir) :
    (installFromGit env entry d).2.tmpGit = false := by
  unfold installFromGit
  cases h : gitBody env entry d with
  | ok d1 => simp
  | error p => simp

/-- C2 counterexample: a lock entry with both a subdirectory path and a
file set does not make installation fail — installFromGit succeeds and
installs the named file (copied to its basename), with no
ConfigurationError anywhere on the path. -/
theorem installFromGit_both_set_succeeds :
    entryBothSet.path.isSome = true ∧ entryBothSet.file.isSome = true ∧
    (installFromGit envBothSet entryBothSet {}).1 = Except.ok () ∧
    (installFromGit envBothSet entryBothSet {}).2.files = ["readme.md"] :=
  ⟨rfl, rfl, rfl, rfl⟩

/-- C2 (amended): for a git-sourced install whose lock entry sets both a
subdirectory path and a file, installation does not fail with a
configuration error; the file takes precedence, the path is ignored (the
result is identical to the same entry without a path), and when clone,
checkout and file lookup succeed the install succeeds and places the
file under its basename. -/
theorem installFromGit_file_precedence (env : InstallEnv) (entry : LockEntry)
    (d : CraftDir) (f : String) (hf : entry.file = some f) :
    installFromGit env entry d = installFromGit env { entry with path := none } d ∧
    (env.cloneOk = true → (entry.commit.isSome && !env.checkoutOk) = false →
      env.gitFileExists = true →
      (installFromGit env entry d).1 = Except.ok () ∧
      basename f ∈ (installFromGit env entry d).2.files) := by
  constructor
  · unfold installFromGit gitBody
    simp only [hf]
  · intro hclone hco hfe
    unfold installFromGit gitBody
    simp only [hf, hclone, hco, hfe, if_true, Bool.false_eq_true, if_false]
    simp [mem_addFile_self]

theorem installFromGit_file_precedence_witness :
    installFromGit envBothSet entryBothSet {}
      = installFromGit envBothSet { entryBothSet with path := none } {} ∧
    (envBothSet.cloneOk = true →
      (entryBothSet.commit.isSome && !envBothSet.checkoutOk) = false →
      envBothSet.gitFileExists = true →
      (installFromGit envBothSet entryBothSet {}).1 = Except.ok () ∧
      basename "docs/readme.md" ∈ (installFromGit envBothSet entryBothSet {}).2.files) :=
  installFromGit_file_precedence envBothSet entryBothSet {} "docs/readme.md" rfl

/-- C3: after plugin registration, the component list for each of the four
types equals the manifest-declared list when one is declared and the
scanned list otherwise — per-type replacement, never a union; in
particular a manifest declaring skills = [a] together with a scanned agent
directory b merges to skills = [a], agents = [b]. -/
theorem mergeComponents_per_type_replacement :
    (∀ (m : Option PluginManifest) (s : Components),
      (mergeComponents m s).skills
        = (declaredList m Components.skills).orElse (fun _ => s.skills) ∧
      (mergeComponents m s).agents
        = (declaredList m Components.agents).orElse (fun _ => s.agents) ∧
      (mergeComponents m s).commands
        = (declaredList m Components.commands).orElse (fun _ => s.commands) ∧
      (mergeComponents m s).hooks
        = (declaredList m Components.hooks).orElse (fun _ => s.hooks)) ∧
    mergeComponents (some { components := some { skills := some ["a"] } })
        { agents := some ["b"] }
      = { skills := some ["a"], agents := some ["b"] } := by
  constructor
  · intro m s
    obtain ⟨sk, sa, sc, sh⟩ := s
    match m with
    | none =>
      cases sk <;> cases sa <;> cases sc <;> cases sh <;>
        simp [mergeComponents, declaredList, Option.orElse]
    | some ⟨none, mcp⟩ =>
      cases sk <;> cases sa <;> cases sc <;> cases sh <;>
        simp [mergeComponents, declaredList, Option.orElse]
    | some ⟨some ⟨mk, ma, mc, mh⟩, mcp⟩ =>
      cases mk <;> cases ma <;> cases mc <;> cases mh <;>
        cases sk <;> cases sa <;> cases sc <;> cases sh <;>
          simp [mergeComponents, declaredList, Option.orElse]
  · rfl

/-- C9: a craft of unrecognized kind is placed under the catch-all crafts
directory, which listInstalled never scans, so a successfully installed
unknown-kind craft never appears in the result of listInstalled. -/
theorem unknown_kind_invisible_to_list (root : List PlacedCraft)
    (name : String) (entry : LockEntry)
    (h : entry.type ∉ ["skill", "agent", "command", "hook", "plugin"]) :
    getTypeDirectory entry.type = "crafts" ∧
    listInstalled (installPlacement root name entry) = listInstalled root := by
  have hd : getTypeDirectory entry.type = "crafts" := by
    unfold getTypeDirectory
    split <;> simp_all
  refine ⟨hd, ?_⟩
  unfold listInstalled installPlacement
  rw [hd]
  apply listInstalledOver_append_notmem
  show "crafts" ∉ typeDirs
  decide

theorem unknown_kind_invisible_to_list_witness :
    getTypeDirectory ({ version := "2.0", type := "theme" : LockEntry }).type = "crafts" ∧
    listInstalled (installPlacement
        [{ typeDir := "skills", name := "s1", meta := some { version := "1.0.0", type := "skill" } }]
        "t" { version := "2.0", type := "theme" })
      = listInstalled
        [{ typeDir := "skills", name := "s1", meta := some { version := "1.0.0", type := "skill" } }] :=
  unknown_kind_invisible_to_list _ "t" { version := "2.0", type := "theme" } (by decide)

/-- C10: readSettings is total — an absent, unreadable or invalid-JSON
settings file yields the default settings document with an empty plugin
map instead of a throw, a valid file yields its parsed content, and every
registration pass therefore starts from a well-formed value and leaves a
valid settings file behind, replacing any previously corrupt content. -/
theorem readSettings_total_default (installDir now : String) :
    readSettings installDir now SettingsFile.absent
      = createDefaultSettings installDir now ∧
    readSettings installDir now SettingsFile.unreadable
      = createDefaultSettings installDir now ∧
    readSettings installDir now SettingsFile.invalidJson
      = createDefaultSettings installDir now ∧
    (createDefaultSettings installDir now).plugins = [] ∧
    (∀ s, readSettings installDir now (SettingsFile.valid s) = s) ∧
    (∀ (config : PluginConfig) (f : SettingsFile),
      ∃ s1, smRegisterPlugin installDir now config f = SettingsFile.valid s1) := by
  refine ⟨rfl, rfl, rfl, rfl, fun s => rfl, fun config f => ⟨_, rfl⟩⟩

theorem installCraft_registry_ok_shape (env : InstallEnv) (name : String)
    (entry : LockEntry) (d : CraftDir) (es : List String)
    (hg : entry.git = none) (hdl : env.downloadOk = true)
    (hz : env.zipEntries = some es) :
    (entry.integrity = none →
      installCraft env name entry d
        = (Except.ok (),
           { d with files := addFile (removeFile (es.foldl addFile (addFile d.files "archive.zip")) "archive.zip") ".craftdesk-metadata.json" },
           [Event.download, Event.warnNoChecksum, Event.extract, Event.removeArchive, Event.writeMetadata]
             ++ (if entry.type = "plugin" then registerPlugin env name entry else []))) ∧
    (∀ i, entry.integrity = some i → verifyFileChecksum env.archiveDigest i = true →
      installCraft env name entry d
        = (Except.ok (),
           { d with files := addFile (removeFile (es.foldl addFile (addFile d.files "archive.zip")) "archive.zip") ".craftdesk-metadata.json" },
           [Event.download, Event.verify true, Event.extract, Event.removeArchive, Event.writeMetadata]
             ++ (if entry.type = "plugin" then registerPlugin env name entry else []))) := by
  constructor
  · intro hi
    simp only [installCraft, installCraftBody, registrySteps, extractSteps,
      hg, hi, hdl, hz, Option.isSome_none, Bool.false_eq_true, if_false, if_true]
    split <;> simp
  · intro i hi hv
    simp only [installCraft, installCraftBody, registrySteps, extractSteps,
      hg, hi, hv, hdl, hz, Option.isSome_none, Bool.false_eq_true, if_false, if_true]
    split <;> simp

theorem installCraft_registry_mismatch_shape (env : InstallEnv) (name : String)
    (entry : LockEntry) (d : CraftDir) (i : String)
    (hg : entry.git = none) (hdl : env.downloadOk = true)
    (hi : entry.integrity = some i)
    (hv : verifyFileChecksum env.archiveDigest i = false) :
    installCraft env name entry d
      = (Except.error (InstallErr.checksumMismatch name entry.version i),
         { d with files := removeFile (addFile d.files "archive.zip") "archive.zip" },
         [Event.download, Event.verify false]) := by
  simp only [installCraft, installCraftBody, registrySteps,
    hg, hi, hv, hdl, Option.isSome_none, Bool.false_eq_true, if_false, if_true]
  rfl

theorem installCraft_registry_extractfail_shape (env : InstallEnv) (name : String)
    (entry : LockEntry) (d : CraftDir)
    (hg : entry.git = none) (hdl : env.downloadOk = true)
    (hz : env.zipEntries = none) :
    (entry.integrity = none →
      installCraft env name entry d
        = (Except.error InstallErr.extractFailed,
           { d with files := addFile d.files "archive.zip" },
           [Event.download, Event.warnNoChecksum])) ∧
    (∀ i, entry.integrity = some i → verifyFileChecksum env.archiveDigest i = true →
      installCraft env name entry d
        = (Except.error InstallErr.extractFailed,
           { d with files := addFile d.files "archive.zip" },
           [Event.download, Event.verify true])) := by
  constructor
  · intro hi
    simp only [installCraft, installCraftBody, registrySteps, extractSteps,
      hg, hi, hdl, hz, Option.isSome_none, Bool.false_eq_true, if_false, if_true]
    rfl
  · intro i hi hv
    simp only [installCraft, installCraftBody, registrySteps, extractSteps,
      hg, hi, hv, hdl, hz, Option.isSome_none, Bool.false_eq_true, if_false, if_true]
    rfl

/-- C1: for a registry-sourced install, an integrity value is checked
before extraction — on mismatch the archive is deleted, a checksum error
is raised, the directory gains no extracted file and no extraction event
occurs; on match the trace shows verification strictly before extraction;
without an integrity value installation proceeds to extraction past a
warning. -/
theorem installCraft_integrity_gate (env : InstallEnv) (name : String)
    (entry : LockEntry) (d : CraftDir)
    (hg : entry.git = none) (hdl : env.downloadOk = true) :
    (∀ i, entry.integrity = some i →
      verifyFileChecksum env.archiveDigest i = false →
      (installCraft env name entry d).1
          = Except.error (InstallErr.checksumMismatch name entry.version i) ∧
      (installCraft env name entry d).2.1.files
          = removeFile (addFile d.files "archive.zip") "archive.zip" ∧
      "archive.zip" ∉ (installCraft env name entry d).2.1.files ∧
      Event.extract ∉ (installCraft env name entry d).2.2) ∧
    (∀ i es, entry.integrity = some i →
      verifyFileChecksum env.archiveDigest i = true →
      env.zipEntries = some es →
      ∃ r, (installCraft env name entry d).2.2
        = [Event.download, Event.verify true, Event.extract,
           Event.removeArchive, Event.writeMetadata] ++ r) ∧
    (∀ es, entry.integrity = none → env.zipEntries = some es →
      (installCraft env name entry d).1 = Except.ok () ∧
      ∃ r, (installCraft env name entry d).2.2
        = [Event.download, Event.warnNoChecksum, Event.extract,
           Event.removeArchive, Event.writeMetadata] ++ r) := by
  refine ⟨?_, ?_, ?_⟩
  · intro i hi hv
    rw [installCraft_registry_mismatch_shape env name entry d i hg hdl hi hv]
    refine ⟨rfl, rfl, not_mem_removeFile_self _ _, ?_⟩
    simp
  · intro i es hi hv hz
    rw [(installCraft_registry_ok_shape env name entry d es hg hdl hz).2 i hi hv]
    exact ⟨_, rfl⟩
  · intro es hi hz
    rw [(installCraft_registry_ok_shape env name entry d es hg hdl hz).1 hi]
    exact ⟨rfl, _, rfl⟩

theorem installCraft_integrity_gate_witness :
    (installCraft envMismatch "demo" entryWithIntegrity {}).1
        = Except.error (InstallErr.checksumMismatch "demo" "1.0.0" "bbb") ∧
    (installCraft envMismatch "demo" entryWithIntegrity {}).2.1.files
        = removeFile (addFile ([] : List String) "archive.zip") "archive.zip" ∧
    "archive.zip" ∉ (installCraft envMismatch "demo" entryWithIntegrity {}).2.1.files ∧
    Event.extract ∉ (installCraft envMismatch "demo" entryWithIntegrity {}).2.2 :=
  (installCraft_integrity_gate envMismatch "demo" entryWithIntegrity {} rfl rfl).1
    "bbb" rfl (by decide)

/-- C7 counterexample: when extraction fails, the downloaded archive file
is not deleted — installCraft rethrows the extraction error and
archive.zip remains in the target directory. -/
theorem installCraft_extractfail_leaves_archive :
    (installCraft envExtractFail "demo" entryRegistryPlain {}).1
        = Except.error InstallErr.extractFailed ∧
    (installCraft envExtractFail "demo" entryRegistryPlain {}).2.1.files
        = ["archive.zip"] :=
  ⟨rfl, rfl⟩

/-- C7 (amended): for a registry-sourced install whose integrity check
passes or is absent, the archive is deleted after successful extraction;
when extraction fails, the error propagates and the archive file remains
in the target directory. -/
theorem installCraft_archive_cleanup (env : InstallEnv) (name : String)
    (entry : LockEntry) (d : CraftDir)
    (hg : entry.git = none) (hdl : env.downloadOk = true)
    (hint : ∀ i, entry.integrity = some i →
      verifyFileChecksum env.archiveDigest i = true) :
    (∀ es, env.zipEntries = some es →
      (installCraft env name entry d).1 = Except.ok () ∧
      "archive.zip" ∉ (installCraft env name entry d).2.1.files) ∧
    (env.zipEntries = none →
      (installCraft env name entry d).1 = Except.error InstallErr.extractFailed ∧
      "archive.zip" ∈ (installCraft env name entry d).2.1.files) := by
  constructor
  · intro es hz
    have hshape := installCraft_registry_ok_shape env name entry d es hg hdl hz
    have heq : installCraft env name entry d
        = (Except.ok (),
           { d with files := addFile (removeFile (es.foldl addFile (addFile d.files "archive.zip")) "archive.zip") ".craftdesk-metadata.json" },
           [Event.download, Event.verify true, Event.extract, Event.removeArchive, Event.writeMetadata]
             ++ (if entry.type = "plugin" then registerPlugin env name entry else []))
        ∨ installCraft env name entry d
        = (Except.ok (),
           { d with files := addFile (removeFile (es.foldl addFile (addFile d.files "archive.zip")) "archive.zip") ".craftdesk-metadata.json" },
           [Event.download, Event.warnNoChecksum, Event.extract, Event.removeArchive, Event.writeMetadata]
             ++ (if entry.type = "plugin" then registerPlugin env name entry else [])) := by
      cases hi : entry.integrity with
      | none => exact Or.inr (hshape.1 hi)
      | some i => exact Or.inl (hshape.2 i hi (hint i hi))
    have hnm : "archive.zip"
        ∉ addFile (removeFile (es.foldl addFile (addFile d.files "archive.zip")) "archive.zip") ".craftdesk-metadata.json" := by
      rw [mem_addFile]
      rintro (h | h)
      · exact not_mem_removeFile_self _ _ h
      · exact absurd h (by decide)
    cases heq with
    | inl h => rw [h]; exact ⟨rfl, hnm⟩
    | inr h => rw [h]; exact ⟨rfl, hnm⟩
  · intro hz
    have hshape := installCraft_registry_extractfail_shape env name entry d hg hdl hz
    cases hi : entry.integrity with
    | none =>
      rw [hshape.1 hi]
      exact ⟨rfl, mem_addFile_self _ _⟩
    | some i =>
      rw [hshape.2 i hi (hint i hi)]
      exact ⟨rfl, mem_addFile_self _ _⟩

theorem installCraft_archive_cleanup_witness :
    ((installCraft envBatch "demo" entryBatchOk {}).1 = Except.ok () ∧
      "archive.zip" ∉ (installCraft envBatch "demo" entryBatchOk {}).2.1.files) ∧
    ((installCraft envExtractFail "demo2" entryRegistryPlain {}).1
        = Except.error InstallErr.extractFailed ∧
      "archive.zip" ∈ (installCraft envExtractFail "demo2" entryRegistryPlain {}).2.1.files) :=
  ⟨(installCraft_archive_cleanup envBatch "demo" entryBatchOk {} rfl rfl
      (fun i h => by cases h; decide)).1 ["SKILL.md"] rfl,
   (installCraft_archive_cleanup envExtractFail "demo2" entryRegistryPlain {} rfl rfl
      (fun i h => nomatch h)).2 rfl⟩

/-- C8: every error thrown while registering a plugin or its MCP servers
is caught by registerPlugin and downgraded to a warning, and installCraft
of a plugin still returns success with the metadata record on disk. -/
theorem registration_failure_nonfatal (env : InstallEnv) (name : String)
    (entry : LockEntry) (d : CraftDir)
    (_hp : entry.type = "plugin") (hg : entry.git = none)
    (hdl : env.downloadOk = true)
    (hint : ∀ i, entry.integrity = some i →
      verifyFileChecksum env.archiveDigest i = true)
    (es : List String) (hz : env.zipEntries = some es) :
    (∀ msg, registerPluginBody env name entry = Except.error msg →
      registerPlugin env name entry = [Event.warnRegisterFailed]) ∧
    (env.settingsThrow = true →
      registerPlugin env name entry = [Event.warnRegisterFailed]) ∧
    ((installCraft env name entry d).1 = Except.ok () ∧
      ".craftdesk-metadata.json" ∈ (installCraft env name entry d).2.1.files) := by
  refine ⟨?_, ?_, ?_⟩
  · intro msg h
    unfold registerPlugin
    rw [h]
  · intro h
    simp [registerPlugin, registerPluginBody, h]
  · have hshape := installCraft_registry_ok_shape env name entry d es hg hdl hz
    cases hi : entry.integrity with
    | none =>
      rw [hshape.1 hi]
      exact ⟨rfl, mem_addFile_self _ _⟩
    | some i =>
      rw [hshape.2 i hi (hint i hi)]
      exact ⟨rfl, mem_addFile_self _ _⟩

theorem registration_failure_nonfatal_witness :
    envSettingsThrow.settingsThrow = true ∧
    registerPlugin envSettingsThrow "p" entryPluginPlain = [Event.warnRegisterFailed] ∧
    (installCraft envSettingsThrow "p" entryPluginPlain {}).1 = Except.ok () ∧
    ".craftdesk-metadata.json" ∈ (installCraft envSettingsThrow "p" entryPluginPlain {}).2.1.files := by
  have h := registration_failure_nonfatal envSettingsThrow "p" entryPluginPlain {}
    rfl rfl rfl (fun i hx => nomatch hx) ["plugin.md"] rfl
  exact ⟨rfl, h.2.1 rfl, h.2.2.1, h.2.2.2⟩

/-- C5: installFromLockfile processes the crafts strictly sequentially in
iteration order — the trace interleaves one started and one completed mark
per craft, so no craft starts before its predecessor completed; the first
error re-raises, aborts the remaining batch (nothing after the failing
craft appears in the trace), and every craft installed before the failure
stays installed. -/
theorem installFromLockfile_sequential_failfast
    (outcome : String → LockEntry → Except InstallErr Unit) :
    (∀ crafts, (∀ c ∈ crafts, outcome c.1 c.2 = Except.ok ()) →
      installFromLockfile outcome crafts
        = (successTrace crafts, crafts.map (fun c => c.1), Except.ok ())) ∧
    (∀ (pre : List (String × LockEntry)) (n : String) (e : LockEntry)
        (post : List (String × LockEntry)) (err : InstallErr),
      (∀ c ∈ pre, outcome c.1 c.2 = Except.ok ()) →
      outcome n e = Except.error err →
      installFromLockfile outcome (pre ++ (n, e) :: post)
        = (successTrace pre ++ [BatchEvent.started n, BatchEvent.failed n],
           pre.map (fun c => c.1), Except.error err)) := by
  constructor
  · intro crafts h
    induction crafts with
    | nil => rfl
    | cons c rest ih =>
      obtain ⟨cn, ce⟩ := c
      have hc : outcome cn ce = Except.ok () := h (cn, ce) (List.mem_cons_self _ _)
      have hrest := ih (fun c2 hc2 => h c2 (List.mem_cons_of_mem _ hc2))
      simp [installFromLockfile, hc, hrest, successTrace]
  · intro pre n e post err hpre hfail
    induction pre with
    | nil =>
      simp [installFromLockfile, hfail, successTrace]
    | cons c rest ih =>
      obtain ⟨cn, ce⟩ := c
      have hc : outcome cn ce = Except.ok () := hpre (cn, ce) (List.mem_cons_self _ _)
      have hrest := ih (fun c2 hc2 => hpre c2 (List.mem_cons_of_mem _ hc2))
      simp [installFromLockfile, hc, hrest, successTrace]

theorem installFromLockfile_sequential_failfast_witness :
    installFromLockfile outcomeBatch
        [("alpha", entryBatchOk), ("beta", entryBatchBad), ("gamma", entryBatchOk)]
      = ([BatchEvent.started "alpha", BatchEvent.completed "alpha",
          BatchEvent.started "beta", BatchEvent.failed "beta"],
         ["alpha"],
         Except.error (InstallErr.checksumMismatch "beta" "1.0.0" "zzz")) := by
  have h := (installFromLockfile_sequential_failfast outcomeBatch).2
    [("alpha", entryBatchOk)] "beta" entryBatchBad [("gamma", entryBatchOk)]
    (InstallErr.checksumMismatch "beta" "1.0.0" "zzz")
    (fun c hc => by rw [List.mem_singleton] at hc; subst hc; rfl)
    (by rfl)
  exact h

theorem collectDependents_mem (tree : List (String × PluginTreeNode))
    (craftName : String) (p : String × PluginTreeNode)
    (hp : p ∈ tree) (hd : craftName ∈ p.2.dependencies.getD []) :
    (p.1 ++ "@" ++ p.2.version) ∈ collectDependents tree craftName := by
  unfold collectDependents
  rw [List.mem_filterMap]
  exact ⟨p, hp, by rw [if_pos hd]⟩

theorem not_mem_pruned_opt (o : Option (List String)) (a : String) :
    a ∉ (o.map (fun l => l.filter (fun dep => !(dep == a)))).getD [] := by
  cases o with
  | none => simp
  | some l => exact not_mem_filter_ne l a

/-- C4: removing a craft that some plugin tree node lists among its
dependencies fails without the force flag and names every such dependent;
with force it succeeds, its lock entry and tree node are gone, and its
name is pruned from the dependencies and requiredBy lists of every
remaining tree node. -/
theorem remove_dependent_safety (craftName : String) (json : CraftDeskJson)
    (lock : Lockfile) (tree : List (String × PluginTreeNode))
    (htree : lock.pluginTree = some tree)
    (hdep : ∃ p ∈ tree, craftName ∈ p.2.dependencies.getD [])
    (hjson : (removeFromJson json craftName).isSome = true)
    (hentry : (lookupKey lock.crafts craftName).isSome = true) :
    (removeCommand craftName false (some json) (some lock)
        = RemoveOutcome.exitDependents (collectDependents tree craftName) ∧
      collectDependents tree craftName ≠ [] ∧
      ∀ p ∈ tree, craftName ∈ p.2.dependencies.getD [] →
        (p.1 ++ "@" ++ p.2.version) ∈ collectDependents tree craftName) ∧
    (∃ json1 lock1,
      removeCommand craftName true (some json) (some lock)
          = RemoveOutcome.removed json1 (some lock1) ∧
      lookupKey lock1.crafts craftName = none ∧
      ∃ tree1, lock1.pluginTree = some tree1 ∧
        ∀ p ∈ tree1, ¬ p.1 = craftName ∧
          craftName ∉ p.2.dependencies.getD [] ∧
          craftName ∉ p.2.requiredBy.getD []) := by
  obtain ⟨q, hq, hqd⟩ := hdep
  have hmem := collectDependents_mem tree craftName q hq hqd
  have hne : collectDependents tree craftName ≠ [] := List.ne_nil_of_mem hmem
  have hempty : (collectDependents tree craftName).isEmpty = false := by
    cases hcd : collectDependents tree craftName with
    | nil => exact absurd hcd hne
    | cons x xs => rfl
  constructor
  · refine ⟨?_, hne, fun p hp hpd => collectDependents_mem tree craftName p hp hpd⟩
    simp [removeCommand, htree, hempty]
  · obtain ⟨pr, hrj⟩ := Option.isSome_iff_exists.mp hjson
    obtain ⟨json1, fld⟩ := pr
    obtain ⟨entryv, hent⟩ := Option.isSome_iff_exists.mp hentry
    refine ⟨json1,
      { crafts := lock.crafts.filter (fun p => !(p.1 == craftName)),
        pluginTree := some ((tree.filter (fun p => !(p.1 == craftName))).map
          (fun p => (p.1, pruneNode craftName p.2))) }, ?_, ?_, ?_⟩
    · simp [removeCommand, htree, hrj, hent]
    · simp only [lookupKey]
      rw [show (lock.crafts.filter (fun p => !(p.1 == craftName))).find?
            (fun p => p.1 == craftName) = none from ?_]
      · rfl
      · rw [List.find?_eq_none]
        intro x hx
        rw [List.mem_filter] at hx
        simpa using hx.2
    · refine ⟨_, rfl, ?_⟩
      intro p hp
      rw [List.mem_map] at hp
      obtain ⟨qq, hqq, rfl⟩ := hp
      rw [List.mem_filter] at hqq
      refine ⟨by simpa using hqq.2, ?_, ?_⟩
      · exact not_mem_pruned_opt qq.2.dependencies craftName
      · exact not_mem_pruned_opt qq.2.requiredBy craftName

theorem remove_dependent_safety_witness :
    removeCommand "y" false (some jsonSample) (some lockSample)
        = RemoveOutcome.exitDependents ["p1@1.0.0", "p2@2.0.0"] ∧
    (∃ json1 lock1,
      removeCommand "y" true (some jsonSample) (some lockSample)
          = RemoveOutcome.removed json1 (some lock1) ∧
      lookupKey lock1.crafts "y" = none ∧
      ∃ tree1, lock1.pluginTree = some tree1 ∧
        ∀ p ∈ tree1, ¬ p.1 = "y" ∧
          "y" ∉ p.2.dependencies.getD [] ∧
          "y" ∉ p.2.requiredBy.getD []) := by
  have h := remove_dependent_safety "y" jsonSample lockSample treeSample rfl
    ⟨("p1", { version := "1.0.0", dependencies := some ["x", "y"] }),
      by simp [treeSample], by simp⟩
    rfl rfl
  exact ⟨h.1.1, h.2⟩

end CraftDesk
